import Mathlib

/-!
Verification of the sorobandomains-sdk-js client library.

This file gives a shallow embedding, in Lean 4, of the algorithmic core of the
`SorobanDomainsSDK` class (`src/sdk.ts`): the Keccak-256 based domain-node
hashing scheme (`hash` / `parseDomain`), the domain validator
(`isValidDomain`), the record/attribute decoding protocol of `searchDomain`,
`getDomainData` and `getReverseDomain`, and the write-path encoders of
`setDomainData` and `setReverseDomain`, together with the control-flow
skeleton of each method (configuration checks, the network calls performed,
and the errors thrown).

Bytes are modelled as `Nat` values (each `< 256` where produced by the code),
64-bit lanes as `Nat` reduced modulo `2 ^ 64`, and JavaScript strings as Lean
`String`s encoded to bytes with an explicit UTF-8 encoder mirroring
`TextEncoder`.
-/

set_option maxRecDepth 100000

namespace SorobanDomains

/-! ## Keccak-256 (the `KECCAK-256` digest of `@std/crypto`, used by `hash`) -/

/-- The 64-bit mask `2 ^ 64 - 1`. -/
def mask64 : Nat := 18446744073709551615

/-- Rotate a 64-bit lane (a `Nat < 2 ^ 64`) left by `n` bits. -/
def rotl64 (x n : Nat) : Nat :=
  (x <<< (n % 64) ||| x >>> (64 - n % 64)) &&& mask64

/-- Bitwise complement of a 64-bit lane. -/
def not64 (x : Nat) : Nat := x ^^^ mask64

/-- The 24 Keccak-f[1600] round constants. -/
def keccakRC : List Nat :=
  [1, 32898, 9223372036854808714,
   9223372039002292224, 32907, 2147483649,
   9223372039002292353, 9223372036854808585, 138,
   136, 2147516425, 2147483658,
   2147516555, 9223372036854775947, 9223372036854808713,
   9223372036854808579, 9223372036854808578, 9223372036854775936,
   32778, 9223372039002259466, 9223372039002292353,
   9223372036854808704, 2147483649, 9223372039002292232]

/-- One Keccak-f[1600] round on a 25-lane state (indexed by `x + 5 * y`):
theta, rho, pi, chi, then iota with round constant `rc`. The rho rotation
offsets and the pi lane permutation are inlined in the `b`-lane bindings.
A state that is not a 25-element list is returned unchanged (never reached:
the state is always built with exactly 25 lanes). -/
def keccakRound (A : List Nat) (rc : Nat) : List Nat :=
  match A with
  | a0 :: a1 :: a2 :: a3 :: a4 :: a5 :: a6 :: a7 :: a8 :: a9 :: a10 :: a11 :: a12 :: a13 :: a14 :: a15 :: a16 :: a17 :: a18 :: a19 :: a20 :: a21 :: a22 :: a23 :: a24 :: _ =>
    let c0 := a0 ^^^ a5 ^^^ a10 ^^^ a15 ^^^ a20
    let c1 := a1 ^^^ a6 ^^^ a11 ^^^ a16 ^^^ a21
    let c2 := a2 ^^^ a7 ^^^ a12 ^^^ a17 ^^^ a22
    let c3 := a3 ^^^ a8 ^^^ a13 ^^^ a18 ^^^ a23
    let c4 := a4 ^^^ a9 ^^^ a14 ^^^ a19 ^^^ a24
    let d0 := c4 ^^^ rotl64 c1 1
    let d1 := c0 ^^^ rotl64 c2 1
    let d2 := c1 ^^^ rotl64 c3 1
    let d3 := c2 ^^^ rotl64 c4 1
    let d4 := c3 ^^^ rotl64 c0 1
    let t0 := a0 ^^^ d0
    let t1 := a1 ^^^ d1
    let t2 := a2 ^^^ d2
    let t3 := a3 ^^^ d3
    let t4 := a4 ^^^ d4
    let t5 := a5 ^^^ d0
    let t6 := a6 ^^^ d1
    let t7 := a7 ^^^ d2
    let t8 := a8 ^^^ d3
    let t9 := a9 ^^^ d4
    let t10 := a10 ^^^ d0
    let t11 := a11 ^^^ d1
    let t12 := a12 ^^^ d2
    let t13 := a13 ^^^ d3
    let t14 := a14 ^^^ d4
    let t15 := a15 ^^^ d0
    let t16 := a16 ^^^ d1
    let t17 := a17 ^^^ d2
    let t18 := a18 ^^^ d3
    let t19 := a19 ^^^ d4
    let t20 := a20 ^^^ d0
    let t21 := a21 ^^^ d1
    let t22 := a22 ^^^ d2
    let t23 := a23 ^^^ d3
    let t24 := a24 ^^^ d4
    let b0 := t0
    let b1 := rotl64 t6 44
    let b2 := rotl64 t12 43
    let b3 := rotl64 t18 21
    let b4 := rotl64 t24 14
    let b5 := rotl64 t3 28
    let b6 := rotl64 t9 20
    let b7 := rotl64 t10 3
    let b8 := rotl64 t16 45
    let b9 := rotl64 t22 61
    let b10 := rotl64 t1 1
    let b11 := rotl64 t7 6
    let b12 := rotl64 t13 25
    let b13 := rotl64 t19 8
    let b14 := rotl64 t20 18
    let b15 := rotl64 t4 27
    let b16 := rotl64 t5 36
    let b17 := rotl64 t11 10
    let b18 := rotl64 t17 15
    let b19 := rotl64 t23 56
    let b20 := rotl64 t2 62
    let b21 := rotl64 t8 55
    let b22 := rotl64 t14 39
    let b23 := rotl64 t15 41
    let b24 := rotl64 t21 2
    let e0 := b0 ^^^ (not64 b1 &&& b2)
    let e1 := b1 ^^^ (not64 b2 &&& b3)
    let e2 := b2 ^^^ (not64 b3 &&& b4)
    let e3 := b3 ^^^ (not64 b4 &&& b0)
    let e4 := b4 ^^^ (not64 b0 &&& b1)
    let e5 := b5 ^^^ (not64 b6 &&& b7)
    let e6 := b6 ^^^ (not64 b7 &&& b8)
    let e7 := b7 ^^^ (not64 b8 &&& b9)
    let e8 := b8 ^^^ (not64 b9 &&& b5)
    let e9 := b9 ^^^ (not64 b5 &&& b6)
    let e10 := b10 ^^^ (not64 b11 &&& b12)
    let e11 := b11 ^^^ (not64 b12 &&& b13)
    let e12 := b12 ^^^ (not64 b13 &&& b14)
    let e13 := b13 ^^^ (not64 b14 &&& b10)
    let e14 := b14 ^^^ (not64 b10 &&& b11)
    let e15 := b15 ^^^ (not64 b16 &&& b17)
    let e16 := b16 ^^^ (not64 b17 &&& b18)
    let e17 := b17 ^^^ (not64 b18 &&& b19)
    let e18 := b18 ^^^ (not64 b19 &&& b15)
    let e19 := b19 ^^^ (not64 b15 &&& b16)
    let e20 := b20 ^^^ (not64 b21 &&& b22)
    let e21 := b21 ^^^ (not64 b22 &&& b23)
    let e22 := b22 ^^^ (not64 b23 &&& b24)
    let e23 := b23 ^^^ (not64 b24 &&& b20)
    let e24 := b24 ^^^ (not64 b20 &&& b21)
    [e0 ^^^ rc, e1, e2, e3, e4, e5, e6, e7, e8, e9, e10, e11, e12, e13, e14, e15, e16, e17, e18, e19, e20, e21, e22, e23, e24]

  | _ => A

/-- The full 24-round Keccak-f[1600] permutation on a 25-lane state. -/
def keccakF (A : List Nat) : List Nat :=
  keccakRC.foldl keccakRound A

/-- Read a little-endian 64-bit lane from a byte list (8 bytes per lane). -/
def bytesToLane (bs : List Nat) : Nat :=
  match bs with
  | [] => 0
  | b :: rest => b % 256 + 256 * bytesToLane rest

/-- Write a 64-bit lane as 8 little-endian bytes. -/
def laneToBytes (x : Nat) : List Nat :=
  [x &&& 255, x >>> 8 &&& 255, x >>> 16 &&& 255, x >>> 24 &&& 255,
   x >>> 32 &&& 255, x >>> 40 &&& 255, x >>> 48 &&& 255, x >>> 56 &&& 255]

/-- Keccak pad10*1 padding with domain byte `0x01` to the 136-byte rate of
Keccak-256. -/
def keccakPad (msg : List Nat) : List Nat :=
  let padLen := 136 - msg.length % 136
  if padLen == 1 then msg ++ [0x81]
  else msg ++ [0x01] ++ List.replicate (padLen - 2) 0 ++ [0x80]

/-- Split a list into 136-byte blocks; `fuel` bounds the recursion and is
instantiated with the list length. -/
def toBlocksAux (fuel : Nat) (l : List Nat) : List (List Nat) :=
  match fuel, l with
  | 0, _ => []
  | _, [] => []
  | Nat.succ f, l => l.take 136 :: toBlocksAux f (l.drop 136)

/-- Split a padded message into its 136-byte rate blocks. -/
def toBlocks (l : List Nat) : List (List Nat) := toBlocksAux l.length l

/-- XOR a 136-byte rate block into the first 17 lanes of the state. -/
def absorbBlock (st : List Nat) (block : List Nat) : List Nat :=
  match st with
  | s0 :: s1 :: s2 :: s3 :: s4 :: s5 :: s6 :: s7 :: s8 :: s9 :: s10 :: s11 :: s12 :: s13 :: s14 :: s15 :: s16 :: rest =>
    (s0 ^^^ bytesToLane (block.take 8)) ::
    (s1 ^^^ bytesToLane ((block.drop 8).take 8)) ::
    (s2 ^^^ bytesToLane ((block.drop 16).take 8)) ::
    (s3 ^^^ bytesToLane ((block.drop 24).take 8)) ::
    (s4 ^^^ bytesToLane ((block.drop 32).take 8)) ::
    (s5 ^^^ bytesToLane ((block.drop 40).take 8)) ::
    (s6 ^^^ bytesToLane ((block.drop 48).take 8)) ::
    (s7 ^^^ bytesToLane ((block.drop 56).take 8)) ::
    (s8 ^^^ bytesToLane ((block.drop 64).take 8)) ::
    (s9 ^^^ bytesToLane ((block.drop 72).take 8)) ::
    (s10 ^^^ bytesToLane ((block.drop 80).take 8)) ::
    (s11 ^^^ bytesToLane ((block.drop 88).take 8)) ::
    (s12 ^^^ bytesToLane ((block.drop 96).take 8)) ::
    (s13 ^^^ bytesToLane ((block.drop 104).take 8)) ::
    (s14 ^^^ bytesToLane ((block.drop 112).take 8)) ::
    (s15 ^^^ bytesToLane ((block.drop 120).take 8)) ::
    (s16 ^^^ bytesToLane ((block.drop 128).take 8)) :: rest
  | _ => st

/-- Absorb every rate block into the state, permuting after each. -/
def absorb (st : List Nat) (blocks : List (List Nat)) : List Nat :=
  match blocks with
  | [] => st
  | b :: bs => absorb (keccakF (absorbBlock st b)) bs

/-- Squeeze the 32-byte Keccak-256 digest from the first 4 lanes of the
final state. -/
def squeeze (st : List Nat) : List Nat :=
  laneToBytes (st.getD 0 0) ++ laneToBytes (st.getD 1 0) ++
    laneToBytes (st.getD 2 0) ++ laneToBytes (st.getD 3 0)

/-- Keccak-256 of a byte sequence: the digest computed by
`crypto.subtle.digestSync("KECCAK-256", ...)` in `hash`. -/
def keccak256 (msg : List Nat) : List Nat :=
  squeeze (absorb (List.replicate 25 0) (toBlocks (keccakPad msg)))

/-! ## UTF-8 (the `TextEncoder().encode` / `Buffer.toString()` boundary) -/

/-- UTF-8 encoding of one Unicode code point. -/
def utf8EncodeCodePoint (n : Nat) : List Nat :=
  if n < 0x80 then [n]
  else if n < 0x800 then [0xC0 + n / 64, 0x80 + n % 64]
  else if n < 0x10000 then [0xE0 + n / 4096, 0x80 + n / 64 % 64, 0x80 + n % 64]
  else [0xF0 + n / 262144, 0x80 + n / 4096 % 64, 0x80 + n / 64 % 64, 0x80 + n % 64]

/-- UTF-8 encoding of a string: `new TextEncoder().encode(s)`. -/
def utf8Encode (s : String) : List Nat :=
  s.data.flatMap fun c => utf8EncodeCodePoint c.toNat

/-- UTF-8 decoder state machine: `pending = some (acc, k)` means a
multi-byte sequence is in progress with accumulated high bits `acc` and `k`
continuation bytes still expected. Well-formed sequences decode to their
code points; this model leaves malformed input unspecified (the SDK only
ever decodes bytes it itself encoded). -/
def utf8DecodeLoop : Option (Nat × Nat) → List Nat → List Char
  | none, [] => []
  | some _, [] => []
  | none, b :: rest =>
    if b < 0xC0 then Char.ofNat b :: utf8DecodeLoop none rest
    else if b < 0xE0 then utf8DecodeLoop (some (b - 0xC0, 1)) rest
    else if b < 0xF0 then utf8DecodeLoop (some (b - 0xE0, 2)) rest
    else utf8DecodeLoop (some (b - 0xF0, 3)) rest
  | some (acc, k), b :: rest =>
    if k == 1 then Char.ofNat (acc * 64 + (b - 0x80)) :: utf8DecodeLoop none rest
    else utf8DecodeLoop (some (acc * 64 + (b - 0x80), k - 1)) rest

/-- UTF-8 decoding of a byte sequence to a character list. -/
def utf8DecodeChars (bs : List Nat) : List Char := utf8DecodeLoop none bs

/-- UTF-8 decoding of a byte sequence to a string: `buffer.toString()`. -/
def utf8Decode (bs : List Nat) : String := String.mk (utf8DecodeChars bs)

/-! ## Hex codec (`encodeHex` / `decodeHex` of `@std/encoding`) -/

/-- The lowercase hex digit for a nibble. -/
def hexDigitChar (n : Nat) : Char :=
  match n with
  | 0 => '0' | 1 => '1' | 2 => '2' | 3 => '3' | 4 => '4'
  | 5 => '5' | 6 => '6' | 7 => '7' | 8 => '8' | 9 => '9'
  | 10 => 'a' | 11 => 'b' | 12 => 'c' | 13 => 'd' | 14 => 'e'
  | 15 => 'f' | _ => '0'

/-- Lowercase hex encoding of a byte sequence, two digits per byte, no
separators: `encodeHex` of `@std/encoding` (also `Buffer.toString("hex")`). -/
def encodeHex (bs : List Nat) : String :=
  String.mk (bs.flatMap fun b => [hexDigitChar (b / 16 % 16), hexDigitChar (b % 16)])

/-- Numeric value of a hex digit character. -/
def hexDigitVal (c : Char) : Nat :=
  if 48 ≤ c.toNat ∧ c.toNat ≤ 57 then c.toNat - 48
  else if 97 ≤ c.toNat ∧ c.toNat ≤ 102 then c.toNat - 87
  else if 65 ≤ c.toNat ∧ c.toNat ≤ 70 then c.toNat - 55
  else 0

/-- Decode pairs of hex digit characters to bytes. -/
def decodeHexChars : List Char → List Nat
  | a :: b :: rest => (hexDigitVal a * 16 + hexDigitVal b) :: decodeHexChars rest
  | _ => []

/-- Hex decoding of a string to bytes: `decodeHex` of `@std/encoding`. -/
def decodeHex (s : String) : List Nat := decodeHexChars s.data

/-- Whether a character is one of the sixteen lowercase hex digits. -/
def isLowerHexDigit (c : Char) : Bool :=
  ('0' ≤ c && c ≤ '9') || ('a' ≤ c && c ≤ 'f')

/-! ## JavaScript string helpers -/

/-- JavaScript truthiness of an optional string: `undefined`, `null` and the
empty string are falsy. -/
def jsTruthy : Option String → Bool
  | none => false
  | some s => !(s == "")

/-- The JavaScript `||` operator on an optional string with a string default:
evaluates to the default when the left side is falsy. -/
def jsOr (o : Option String) (dflt : String) : String :=
  match o with
  | none => dflt
  | some s => if s == "" then dflt else s

/-- ASCII lowercasing of one character: `Char.toLower` matches
`toLocaleLowerCase` on the ASCII range used by domain names. -/
def jsToLowerCase (s : String) : String := String.mk (s.data.map Char.toLower)

/-- Split a character list on the dot separator, JavaScript
`String.prototype.split(".")` semantics: the empty string yields one empty
part, and consecutive dots yield empty parts. -/
def splitDotChars : List Char → List (List Char)
  | [] => [[]]
  | c :: rest =>
    if c == '.' then [] :: splitDotChars rest
    else
      match splitDotChars rest with
      | [] => [[c]]
      | p :: ps => (c :: p) :: ps

/-- `s.split(".")` on a string. -/
def jsSplitDot (s : String) : List String :=
  (splitDotChars s.data).map fun l => String.mk l

/-- Join a list of character lists with dots (`Array.prototype.join(".")`),
character-list level. -/
def joinDotChars : List (List Char) → List Char
  | [] => []
  | [p] => p
  | p :: ps => p ++ '.' :: joinDotChars ps

/-- `parts.join(".")` on strings. -/
def joinDot : List String → String
  | [] => ""
  | [s] => s
  | s :: rest => s ++ "." ++ joinDot rest

/-! ## `SorobanDomainsSDK.hash` and `SorobanDomainsSDK.parseDomain` -/

/-- The argument of `hash`: a JavaScript `string | Uint8Array`. -/
inductive HashInput
  | str (text : String)
  | bytes (b : List Nat)

/-- `SorobanDomainsSDK.hash`: Keccak-256 of the UTF-8 encoding of a string,
or of a byte sequence directly. -/
def hash : HashInput → List Nat
  | .str text => keccak256 (utf8Encode text)
  | .bytes b => keccak256 b

/-- The parameter object of `parseDomain`. -/
structure ParseDomainParams where
  domain : String
  subDomain : Option String
  tld : Option String

/-- `SorobanDomainsSDK.parseDomain`: the node is
`hash(concat(hash(tld || "xlm"), hash(domain)))`; when `subDomain` is truthy
the subnode `hash(concat(hash(node), hash(subDomain)))` is hex-encoded,
otherwise the node is. -/
def parseDomain (params : ParseDomainParams) : String :=
  let node : List Nat := hash (.bytes (hash (.str (jsOr params.tld "xlm")) ++
    hash (.str params.domain)))
  if jsTruthy params.subDomain then
    let subNode : List Nat := hash (.bytes (hash (.bytes node) ++
      hash (.str (jsOr params.subDomain ""))))
    encodeHex subNode
  else
    encodeHex node

/-! ## `SorobanDomainsSDK.isValidDomain` -/

/-- Whether a character is a lowercase ASCII letter (the `[a-z]` class). -/
def isLowerAlpha (c : Char) : Bool := 'a' ≤ c && c ≤ 'z'

/-- Denotation of the anchored regular expression
`^[a-z]+(\.[a-z]+)*\.[a-z]{2,}$` used by `isValidDomain`: the string is a
dot-separated sequence of at least two labels, every label is a nonempty run
of lowercase letters, and the final label has at least two characters. -/
def domainRegexTest (s : String) : Bool :=
  let parts := splitDotChars s.data
  decide (2 ≤ parts.length) &&
    parts.all (fun p => decide (1 ≤ p.length) && p.all isLowerAlpha) &&
    decide (2 ≤ (parts.getLastD []).length)

/-- `SorobanDomainsSDK.isValidDomain`: regex test, then at most 3 labels,
then every label at most 15 characters. -/
def isValidDomain (domain : String) : Bool :=
  if !(domainRegexTest domain) then false
  else
    let parts : List String := jsSplitDot domain
    if decide (parts.length > 3) then false
    else parts.all fun part => decide (part.length ≤ 15)

/-! ## Data model (`src/types.ts`) and errors (`src/errors.ts`) -/

/-- The `Domain` entity of `types.ts` (all fields transported as strings). -/
structure Domain where
  node : String
  owner : String
  address : String
  exp_date : String
  collateral : String
  snapshot : String
deriving DecidableEq, Repr

/-- The `SubDomain` entity of `types.ts`. -/
structure SubDomain where
  node : String
  parent : String
  address : String
  snapshot : String
deriving DecidableEq, Repr

/-- The `Record` tagged union of `types.ts`:
`{type: RecordType.Domain, value} | {type: RecordType.SubDomain, value}`. -/
inductive Record
  | domainRecord (value : Domain)
  | subDomainRecord (value : SubDomain)
deriving DecidableEq, Repr

/-- The errors the SDK can signal: the named classes of `errors.ts` plus
plain `new Error(message)` throws. -/
inductive SdkError
  | jsError (message : String)
  | domain404
  | domainData404
  | reverseDomain404
  | domainDataUnsupportedValueType
deriving DecidableEq, Repr

/-- The configuration fields of `SorobanDomainsSDKParams` the methods
consult. Contract identifiers are optional; the methods test them with
JavaScript truthiness. -/
structure SdkConfig where
  vaultsContractId : Option String
  valuesDatabaseContractId : Option String
  reverseRegistrarContractId : Option String
  simulationAccount : String
deriving DecidableEq, Repr

/-- A network interaction performed by a method, in order. -/
inductive NetCall
  | getAccount (address : String)
  | simulateTransaction
deriving DecidableEq, Repr

/-- The outcome the RPC collaborator reports for `simulateTransaction`:
either a simulation error with a message, or a success whose return value
decodes (`scValToNative`) to `none` for an empty/void reply or to `some`
native value. -/
inductive SimOutcome (α : Type)
  | simulationError (message : String)
  | success (retval : Option α)

/-- The reverse-registrar wire triple: `tld`, `sld` and `subs` as byte
sequences (`TextEncoder`-encoded labels). -/
structure ReverseDomainTriple where
  tld : List Nat
  sld : List Nat
  subs : List (List Nat)
deriving DecidableEq, Repr

/-- The fragment of `xdr.ScVal` the SDK constructs. `scvTriple` stands for
the `nativeToScVal(domainParts, {type: {tld: ["symbol"], ...}})` structured
record of `setReverseDomain`. -/
inductive ScVal
  | scvBytes (b : List Nat)
  | scvSymbol (s : String)
  | scvString (s : String)
  | scvI128 (n : Int)
  | scvAddress (a : String)
  | scvVec (elems : List ScVal)
  | scvVoid
  | scvTriple (t : ReverseDomainTriple)

/-- The native payload carried in position 1 of a decoded storage value. -/
inductive NativePayload
  | bytes (b : List Nat)
  | int (n : Int)
  | str (s : String)
deriving DecidableEq, Repr

/-- A `DomainStorageValue` as JavaScript sees it: the 2-tuple
`[tag, payload]`, with the tag an arbitrary runtime string (the TypeScript
type restricts it to "Bytes" | "Number" | "String", but the code also
handles other tags defensively). -/
structure JsStorageValue where
  tag : String
  payload : NativePayload
deriving DecidableEq, Repr

/-! ## Record decoding (`searchDomain`, read path) -/

/-- The fields of the decoded native record reply (`result[1]`): byte
buffers for `node` / `owner` / `parent`, the resolution address, and the
numeric fields as returned by `scValToNative`. The `Domain` arm reads
`owner`, `exp_date` and `collateral`; the `SubDomain` arm reads `parent`. -/
structure RawRecordFields where
  node : List Nat
  owner : List Nat
  parent : List Nat
  address : String
  exp_date : Nat
  collateral : Nat
  snapshot : Nat
deriving DecidableEq, Repr

/-- The tag dispatch of `searchDomain` on a non-empty reply `[tag, fields]`:
exact match on `"Domain"`, unconditional fallthrough to the SubDomain arm
for every other tag. Byte fields become lowercase hex
(`.toString("hex")`), numeric fields become decimal strings
(`.toString()`). -/
def decodeRecord (tag : String) (fields : RawRecordFields) : Record :=
  if tag == "Domain" then
    .domainRecord
      { node := encodeHex fields.node
        owner := encodeHex fields.owner
        address := fields.address
        exp_date := toString fields.exp_date
        collateral := toString fields.collateral
        snapshot := toString fields.snapshot }
  else
    .subDomainRecord
      { node := encodeHex fields.node
        parent := encodeHex fields.parent
        address := fields.address
        snapshot := toString fields.snapshot }

/-- `searchDomain`: config check, node computation, account fetch,
simulation, then decode. The simulation outcome is supplied by the RPC
oracle argument; the second component lists the network calls performed. -/
def searchDomain (cfg : SdkConfig) (domain : String) (subDomain : Option String)
    (sim : SimOutcome (String × RawRecordFields)) :
    Except SdkError Record × List NetCall :=
  if !(jsTruthy cfg.vaultsContractId) then
    (.error (.jsError "Vault\x27s contract id was not provided"), [])
  else
    let domainNode : String := parseDomain
      { domain := jsToLowerCase domain
        subDomain := subDomain.map jsToLowerCase
        tld := none }
    let _record_key : ScVal := .scvVec
      [.scvSymbol (if jsTruthy subDomain then "SubRecord" else "Record"),
       .scvBytes (decodeHex domainNode)]
    let calls := [NetCall.getAccount cfg.simulationAccount, NetCall.simulateTransaction]
    match sim with
    | .simulationError m => (.error (.jsError m), calls)
    | .success none => (.error .domain404, calls)
    | .success (some (tag, fields)) => (.ok (decodeRecord tag fields), calls)

/-! ## `getDomainData` / `setDomainData` / `removeDomainData` -/

/-- `getDomainData`: config check, account fetch, simulation, then either
the 404 error on an empty reply or the decoded native value as-is. -/
def getDomainData (cfg : SdkConfig) (node key : String)
    (sim : SimOutcome JsStorageValue) :
    Except SdkError JsStorageValue × List NetCall :=
  if !(jsTruthy cfg.valuesDatabaseContractId) then
    (.error (.jsError "KeyValue Database contract id was not provided"), [])
  else
    let _nodeBytes : ScVal := .scvBytes (decodeHex node)
    let _keySymbol : ScVal := .scvSymbol key
    let calls := [NetCall.getAccount cfg.simulationAccount, NetCall.simulateTransaction]
    match sim with
    | .simulationError m => (.error (.jsError m), calls)
    | .success none => (.error .domainData404, calls)
    | .success (some v) => (.ok v, calls)

/-- Projection of a native payload to bytes (`params.value[1]` in the
`"Bytes"` arm; the default is only reached on a tag / payload mismatch,
which the TypeScript type excludes). -/
def NativePayload.asBytes : NativePayload → List Nat
  | .bytes b => b
  | _ => []

/-- Projection of a native payload to an integer (the `"Number"` arm). -/
def NativePayload.asInt : NativePayload → Int
  | .int n => n
  | _ => 0

/-- Projection of a native payload to a string (the `"String"` arm). -/
def NativePayload.asStr : NativePayload → String
  | .str s => s
  | _ => ""

/-- The `switch (params.value[0])` of `setDomainData`: the three supported
tags encode to a tagged `scvVec` pair; any other tag throws
`DomainDataUnsupportedValueType`. -/
def encodeDomainDataValue (v : JsStorageValue) : Except SdkError ScVal :=
  match v.tag with
  | "Bytes" => .ok (.scvVec [.scvSymbol "Bytes", .scvBytes v.payload.asBytes])
  | "Number" => .ok (.scvVec [.scvSymbol "Number", .scvI128 v.payload.asInt])
  | "String" => .ok (.scvVec [.scvSymbol "String", .scvString v.payload.asStr])
  | _ => .error .domainDataUnsupportedValueType

/-- `setDomainData`: config check, value encoding (which throws on an
unsupported tag before any network call), account fetch, simulation. On
success the result carries the encoded wire value passed to
`contract.call("set", ...)`. -/
def setDomainData (cfg : SdkConfig) (node key : String) (value : JsStorageValue)
    (source : String) (sim : SimOutcome Unit) :
    Except SdkError ScVal × List NetCall :=
  if !(jsTruthy cfg.valuesDatabaseContractId) then
    (.error (.jsError "KeyValue Database contract id was not provided"), [])
  else
    let _nodeBytes : ScVal := .scvBytes (decodeHex node)
    let _keySymbol : ScVal := .scvSymbol key
    match encodeDomainDataValue value with
    | .error e => (.error e, [])
    | .ok wireValue =>
      let calls := [NetCall.getAccount source, NetCall.simulateTransaction]
      match sim with
      | .simulationError m => (.error (.jsError m), calls)
      | .success _ => (.ok wireValue, calls)

/-- `removeDomainData`: config check, account fetch, simulation. -/
def removeDomainData (cfg : SdkConfig) (node key : String) (source : String)
    (sim : SimOutcome Unit) : Except SdkError Unit × List NetCall :=
  if !(jsTruthy cfg.valuesDatabaseContractId) then
    (.error (.jsError "KeyValue Database contract id was not provided"), [])
  else
    let _nodeBytes : ScVal := .scvBytes (decodeHex node)
    let _keySymbol : ScVal := .scvSymbol key
    let calls := [NetCall.getAccount source, NetCall.simulateTransaction]
    match sim with
    | .simulationError m => (.error (.jsError m), calls)
    | .success _ => (.ok (), calls)

/-! ## `setReverseDomain` / `getReverseDomain` -/

/-- The `domainParts` object of `setReverseDomain`, built from the labels of
the lowercased domain: `parts[parts.length - 1]` is the tld,
`parts[parts.length - 2]` the sld, and `parts.slice(0, parts.length - 2)`
the subs, each label `TextEncoder`-encoded. -/
def mkReverseTriple (parts : List String) : ReverseDomainTriple :=
  { tld := utf8Encode (parts.getD (parts.length - 1) "")
    sld := utf8Encode (parts.getD (parts.length - 2) "")
    subs := (parts.take (parts.length - 2)).map utf8Encode }

/-- The domain-argument encoding of `setReverseDomain`: `null` becomes
`scvVoid`; otherwise the string is lowercased and split on dots, fewer than
2 labels throw `Error("Invalid domain format")`, and the labels become the
wire triple. -/
def encodeReverseDomain (domain : Option String) : Except SdkError ScVal :=
  match domain with
  | none => .ok .scvVoid
  | some d =>
    let parts := jsSplitDot (jsToLowerCase d)
    if decide (parts.length < 2) then .error (.jsError "Invalid domain format")
    else .ok (.scvTriple (mkReverseTriple parts))

/-- `setReverseDomain`: config check, domain encoding (which throws on a
malformed domain before any network call), account fetch, simulation. On
success the result carries the `(address, domain)` argument pair of
`contract.call("set", ...)`. -/
def setReverseDomain (cfg : SdkConfig) (address : String)
    (domain : Option String) (source : String) (sim : SimOutcome Unit) :
    Except SdkError (ScVal × ScVal) × List NetCall :=
  if !(jsTruthy cfg.reverseRegistrarContractId) then
    (.error (.jsError "Reverse Registrar contract id was not provided"), [])
  else
    let addressScval : ScVal := .scvAddress address
    match encodeReverseDomain domain with
    | .error e => (.error e, [])
    | .ok domainScval =>
      let calls := [NetCall.getAccount source, NetCall.simulateTransaction]
      match sim with
      | .simulationError m => (.error (.jsError m), calls)
      | .success _ => (.ok (addressScval, domainScval), calls)

/-- The rendering step of `getReverseDomain` on a non-empty reply: decode
`tld`, `sld` and every sub to text, join the subs with dots, and produce
`` `${subs ? subs + "." : ""}${sld}.${tld}` ``. -/
def renderReverseDomain (t : ReverseDomainTriple) : String :=
  let tld := utf8Decode t.tld
  let sld := utf8Decode t.sld
  let subs := joinDot (t.subs.map utf8Decode)
  (if subs == "" then "" else subs ++ ".") ++ sld ++ "." ++ tld

/-- `getReverseDomain`: config check, account fetch, simulation, then the
404 error on an empty reply or the rendered dotted domain. -/
def getReverseDomain (cfg : SdkConfig) (address : String)
    (sim : SimOutcome ReverseDomainTriple) :
    Except SdkError String × List NetCall :=
  if !(jsTruthy cfg.reverseRegistrarContractId) then
    (.error (.jsError "Reverse Registrar contract id was not provided"), [])
  else
    let _addressScval : ScVal := .scvAddress address
    let calls := [NetCall.getAccount cfg.simulationAccount, NetCall.simulateTransaction]
    match sim with
    | .simulationError m => (.error (.jsError m), calls)
    | .success none => (.error .reverseDomain404, calls)
    | .success (some t) => (.ok (renderReverseDomain t), calls)

/-! ## Supporting lemmas -/

/-- Every Unicode code point is below `0x110000`. -/
theorem char_toNat_lt (c : Char) : c.toNat < 1114112 := by
  rcases c.valid with h | ⟨_, h⟩
  · have h2 : c.val.toNat < 55296 := h
    simp only [Char.toNat]
    omega
  · have h2 : c.val.toNat < 1114112 := h
    exact h2

/-- Consuming one continuation byte with more than one still expected. -/
theorem loop_cont_step (acc k b : Nat) (rest : List Nat) (hk : k ≠ 1) :
    utf8DecodeLoop (some (acc, k)) (b :: rest) =
      utf8DecodeLoop (some (acc * 64 + (b - 128), k - 1)) rest := by
  simp [utf8DecodeLoop, hk]

/-- Consuming the final continuation byte emits the code point. -/
theorem loop_last_step (acc b : Nat) (rest : List Nat) :
    utf8DecodeLoop (some (acc, 1)) (b :: rest) =
      Char.ofNat (acc * 64 + (b - 128)) :: utf8DecodeLoop none rest := by
  simp [utf8DecodeLoop]

/-- The UTF-8 decoder undoes the encoder one character at a time. -/
theorem utf8DecodeChars_encode_cons (c : Char) (rest : List Nat) :
    utf8DecodeChars (utf8EncodeCodePoint c.toNat ++ rest) = c :: utf8DecodeChars rest := by
  have hv : c.toNat < 1114112 := char_toNat_lt c
  set n := c.toNat with hn
  show utf8DecodeLoop none (utf8EncodeCodePoint n ++ rest) = c :: utf8DecodeLoop none rest
  rcases Nat.lt_or_ge n 128 with h1 | h1
  · rw [utf8EncodeCodePoint, if_pos h1]
    show utf8DecodeLoop none (n :: rest) = c :: utf8DecodeLoop none rest
    rw [utf8DecodeLoop, if_pos (by omega), hn, Char.ofNat_toNat]
  · rcases Nat.lt_or_ge n 2048 with h2 | h2
    · rw [utf8EncodeCodePoint, if_neg (by omega), if_pos h2]
      show utf8DecodeLoop none ((192 + n / 64) :: (128 + n % 64) :: rest) =
        c :: utf8DecodeLoop none rest
      rw [utf8DecodeLoop, if_neg (by omega), if_pos (by omega), loop_last_step]
      have he : (192 + n / 64 - 192) * 64 + (128 + n % 64 - 128) = n := by omega
      rw [he, hn, Char.ofNat_toNat]
    · rcases Nat.lt_or_ge n 65536 with h3 | h3
      · rw [utf8EncodeCodePoint, if_neg (by omega), if_neg (by omega), if_pos h3]
        show utf8DecodeLoop none ((224 + n / 4096) :: (128 + n / 64 % 64) ::
          (128 + n % 64) :: rest) = c :: utf8DecodeLoop none rest
        rw [utf8DecodeLoop, if_neg (by omega), if_neg (by omega), if_pos (by omega),
          loop_cont_step _ _ _ _ (by omega)]
        simp only [show (2 : Nat) - 1 = 1 from rfl]
        rw [loop_last_step]
        have he : ((224 + n / 4096 - 224) * 64 + (128 + n / 64 % 64 - 128)) * 64 +
            (128 + n % 64 - 128) = n := by omega
        rw [he, hn, Char.ofNat_toNat]
      · rw [utf8EncodeCodePoint, if_neg (by omega), if_neg (by omega), if_neg (by omega)]
        show utf8DecodeLoop none ((240 + n / 262144) :: (128 + n / 4096 % 64) ::
          (128 + n / 64 % 64) :: (128 + n % 64) :: rest) = c :: utf8DecodeLoop none rest
        rw [utf8DecodeLoop, if_neg (by omega), if_neg (by omega), if_neg (by omega),
          loop_cont_step _ _ _ _ (by omega)]
        simp only [show (3 : Nat) - 1 = 2 from rfl]
        rw [loop_cont_step _ _ _ _ (by omega)]
        simp only [show (2 : Nat) - 1 = 1 from rfl]
        rw [loop_last_step]
        have he : (((240 + n / 262144 - 240) * 64 + (128 + n / 4096 % 64 - 128)) * 64 +
            (128 + n / 64 % 64 - 128)) * 64 + (128 + n % 64 - 128) = n := by omega
        rw [he, hn, Char.ofNat_toNat]

/-- Decoding an encoded character list gives it back. -/
theorem utf8_roundtrip_chars (cs : List Char) :
    utf8DecodeChars (cs.flatMap fun c => utf8EncodeCodePoint c.toNat) = cs := by
  induction cs with
  | nil => rfl
  | cons c cs ih =>
    rw [List.flatMap_cons, utf8DecodeChars_encode_cons, ih]

/-- UTF-8 round trip on strings. -/
theorem utf8_roundtrip (s : String) : utf8Decode (utf8Encode s) = s := by
  rw [utf8Encode, utf8Decode, utf8_roundtrip_chars]

/-- Splitting on dots never yields an empty part list. -/
theorem splitDotChars_ne_nil (l : List Char) : splitDotChars l ≠ [] := by
  cases l with
  | nil => simp [splitDotChars]
  | cons c rest =>
    rw [splitDotChars]
    by_cases h : (c == '.') = true
    · simp [h]
    · simp only [h, Bool.false_eq_true, if_false]
      cases hs : splitDotChars rest <;> simp

/-- Joining with dots undoes splitting on dots, character-list level. -/
theorem joinDotChars_splitDotChars (l : List Char) : joinDotChars (splitDotChars l) = l := by
  induction l with
  | nil => rfl
  | cons c rest ih =>
    obtain ⟨q, qs, hq⟩ := List.exists_cons_of_ne_nil (splitDotChars_ne_nil rest)
    rw [hq] at ih
    rw [splitDotChars]
    by_cases h : (c == '.') = true
    · have hc : c = '.' := by simpa using h
      rw [if_pos h, hq]
      show joinDotChars ([] :: q :: qs) = c :: rest
      simp only [joinDotChars, List.nil_append]
      rw [ih, hc]
    · rw [if_neg h, hq]
      show joinDotChars ((c :: q) :: qs) = c :: rest
      cases qs with
      | nil =>
        simp only [joinDotChars] at ih ⊢
        rw [ih]
      | cons q2 qs2 =>
        simp only [joinDotChars, List.cons_append] at ih ⊢
        rw [ih]

/-- Appending strings appends their character data. -/
theorem strMk_append (a b : List Char) : String.mk a ++ String.mk b = String.mk (a ++ b) := rfl

/-- `joinDot` over made strings is `joinDotChars` on the underlying lists. -/
theorem joinDot_map_mk (ls : List (List Char)) :
    joinDot (ls.map String.mk) = String.mk (joinDotChars ls) := by
  induction ls with
  | nil => rfl
  | cons p ps ih =>
    cases ps with
    | nil => rfl
    | cons q qs =>
      simp only [List.map_cons] at ih ⊢
      show String.mk p ++ "." ++ joinDot (String.mk q :: qs.map String.mk) =
        String.mk (p ++ '.' :: joinDotChars (q :: qs))
      rw [ih, show ("." : String) = String.mk ['.'] from rfl, strMk_append, strMk_append]
      simp

/-- Joining the dot-split parts of a string gives the string back. -/
theorem joinDot_jsSplitDot (s : String) : joinDot (jsSplitDot s) = s := by
  rw [jsSplitDot, joinDot_map_mk, joinDotChars_splitDotChars]

/-- Strings with equal character data are equal. -/
theorem string_data_ext {s t : String} (h : s.data = t.data) : s = t :=
  congrArg String.mk h

/-- Character data of an appended string. -/
theorem data_append (a b : String) : (a ++ b).data = a.data ++ b.data := rfl

/-- Character data of the dot separator. -/
theorem dot_data : ("." : String).data = ['.'] := rfl

/-- Every list of length at least two ends in two elements. -/
theorem exists_append_pair (l : List String) (h : 2 ≤ l.length) :
    ∃ init a b, l = init ++ [a, b] := by
  rcases hl : l.reverse with _ | ⟨x, _ | ⟨y, rest⟩⟩
  · rw [List.reverse_eq_nil_iff] at hl
    subst hl
    simp at h
  · have hlen : l.length = 1 := by
      rw [← List.length_reverse, hl]
      rfl
    omega
  · refine ⟨rest.reverse, y, x, ?_⟩
    have h2 := congrArg List.reverse hl
    rw [List.reverse_reverse] at h2
    rw [h2]
    simp

/-- A dot-join is empty only for no parts or a single empty part. -/
theorem joinDot_eq_empty (init : List String) (h : joinDot init = "") :
    init = [] ∨ init = [""] := by
  match init with
  | [] => exact Or.inl rfl
  | [x] =>
    simp only [joinDot] at h
    exact Or.inr (by rw [h])
  | x :: y :: t =>
    exfalso
    have hd := congrArg String.data h
    simp only [joinDot, data_append, dot_data] at hd
    simp at hd

/-- Character data of a dot-join. -/
theorem joinDot_data (ls : List String) :
    (joinDot ls).data = joinDotChars (ls.map String.data) := by
  induction ls with
  | nil => rfl
  | cons p ps ih =>
    cases ps with
    | nil => rfl
    | cons q qs =>
      simp only [joinDot, joinDotChars, List.map_cons, data_append, dot_data] at ih ⊢
      rw [ih]
      simp

/-- Joining after appending a final pair of parts. -/
theorem jdc_append_pair (ps : List (List Char)) (x y : List Char) (h : ps ≠ []) :
    joinDotChars (ps ++ [x, y]) = joinDotChars ps ++ ('.' :: (x ++ ('.' :: y))) := by
  induction ps with
  | nil => exact absurd rfl h
  | cons p ps ih =>
    cases ps with
    | nil => simp [joinDotChars]
    | cons q qs =>
      have ihh := ih (by simp)
      simp only [List.cons_append, joinDotChars] at ihh ⊢
      simp [ihh, List.append_assoc]

/-- The last element of a list extended by a final pair. -/
theorem getD_append_pair_last (subs : List String) (a b : String) :
    (subs ++ [a, b]).getD (subs.length + 1) "" = b := by
  induction subs with
  | nil => rfl
  | cons x xs ih => simpa [List.getD_cons_succ] using ih

/-- The second-to-last element of a list extended by a final pair. -/
theorem getD_append_pair_penult (subs : List String) (a b : String) :
    (subs ++ [a, b]).getD subs.length "" = a := by
  induction subs with
  | nil => rfl
  | cons x xs ih => simpa [List.getD_cons_succ] using ih

/-- Taking all but a final pair. -/
theorem take_append_pair (subs : List String) (a b : String) :
    (subs ++ [a, b]).take subs.length = subs := by
  induction subs with
  | nil => rfl
  | cons x xs ih => simp [ih]

/-- The `domainParts` triple built from labels ending in `sld` then `tld`. -/
theorem mkReverseTriple_append (subs : List String) (a b : String) :
    mkReverseTriple (subs ++ [a, b]) =
      ⟨utf8Encode b, utf8Encode a, subs.map utf8Encode⟩ := by
  have h1 : (subs ++ [a, b]).length - 1 = subs.length + 1 := by simp
  have h2 : (subs ++ [a, b]).length - 2 = subs.length := by simp
  rw [mkReverseTriple, h1, h2, getD_append_pair_last, getD_append_pair_penult,
    take_append_pair]

/-- Hex digits produced from nibbles are lowercase hex digits. -/
theorem hexDigitChar_mod_hex (m : Nat) : isLowerHexDigit (hexDigitChar (m % 16)) = true := by
  have h : m % 16 < 16 := Nat.mod_lt m (by decide)
  have hall : ∀ k < 16, isLowerHexDigit (hexDigitChar k) = true := by decide
  exact hall _ h

/-- The digest always has exactly 32 bytes, whatever the input. -/
theorem keccak256_length (msg : List Nat) : (keccak256 msg).length = 32 := by
  simp [keccak256, squeeze, laneToBytes]

/-- Hex encoding produces two characters per byte. -/
theorem encodeHex_length (bs : List Nat) : (encodeHex bs).length = 2 * bs.length := by
  induction bs with
  | nil => rfl
  | cons b rest ih =>
    simp only [encodeHex, String.length, List.flatMap_cons, List.length_append,
      List.length_cons, List.length_nil] at ih ⊢
    omega

/-- Every character of a hex encoding is a lowercase hex digit. -/
theorem encodeHex_all_hex (bs : List Nat) :
    (encodeHex bs).data.all isLowerHexDigit = true := by
  induction bs with
  | nil => rfl
  | cons b rest ih =>
    simp only [encodeHex, List.flatMap_cons, List.all_append, List.all_cons, List.all_nil,
      Bool.and_true, Bool.and_eq_true] at ih ⊢
    exact ⟨⟨hexDigitChar_mod_hex _, hexDigitChar_mod_hex _⟩, ih⟩

/-! ## The claims -/

/-- Claim C1: `parseDomain` hex-encodes the node
`H(H(tld or "xlm") || H(domain))` when no subdomain is given and the subnode
`H(H(node) || H(subDomain))` when one is given, where `H` is Keccak-256 and
`||` concatenates the two 32-byte digests; in particular the `"stellar"` and
`"stellar"`/`"payments"` golden vectors hold. -/
theorem parseDomain_node_scheme :
    (∀ d t, parseDomain ⟨d, none, t⟩ =
      encodeHex (keccak256 (keccak256 (utf8Encode (jsOr t "xlm")) ++ keccak256 (utf8Encode d))))
    ∧ (∀ d s t, s ≠ "" → parseDomain ⟨d, some s, t⟩ =
      encodeHex (keccak256 (keccak256 (keccak256 (keccak256 (utf8Encode (jsOr t "xlm")) ++
        keccak256 (utf8Encode d))) ++ keccak256 (utf8Encode s))))
    ∧ parseDomain ⟨"stellar", none, none⟩ =
      "2fe4cc6a15f9466bad71ed407a8f1b7da81efd931e7712753152aa17abc0e06e"
    ∧ parseDomain ⟨"stellar", some "payments", none⟩ =
      "c5e4e1b82ef754efdad5c3ce2f1ed0eb7d640076e1674aebc6b9419fe11b2e7a" := by
  refine ⟨fun d t => rfl, fun d s t h => ?_, by decide, by decide⟩
  simp [parseDomain, jsTruthy, jsOr, hash, h]

/-- Witness for C1 at `domain = "stellar"`, `subDomain = "payments"`. -/
theorem parseDomain_node_scheme_witness :
    parseDomain ⟨"stellar", some "payments", none⟩ =
      encodeHex (keccak256 (keccak256 (keccak256 (keccak256 (utf8Encode (jsOr none "xlm")) ++
        keccak256 (utf8Encode "stellar"))) ++ keccak256 (utf8Encode "payments"))) :=
  parseDomain_node_scheme.2.1 "stellar" "payments" none (by decide)

/-- Claim C2: decoding a non-empty `searchDomain` reply `[tag, fields]`
dispatches by exact match on `"Domain"` (yielding a Domain record with
lowercase-hex `node` / `owner` and decimal-string numeric fields) and falls
through to a SubDomain record for every other tag, with no validation of
that tag. -/
theorem searchDomain_decode_dispatch :
    (∀ fields, decodeRecord "Domain" fields = .domainRecord
      { node := encodeHex fields.node, owner := encodeHex fields.owner,
        address := fields.address, exp_date := toString fields.exp_date,
        collateral := toString fields.collateral, snapshot := toString fields.snapshot })
    ∧ (∀ tag fields, tag ≠ "Domain" → decodeRecord tag fields = .subDomainRecord
      { node := encodeHex fields.node, parent := encodeHex fields.parent,
        address := fields.address, snapshot := toString fields.snapshot })
    ∧ (∀ cfg d s tag fields, jsTruthy cfg.vaultsContractId = true →
      (searchDomain cfg d s (.success (some (tag, fields)))).1 =
        .ok (decodeRecord tag fields)) := by
  refine ⟨fun fields => rfl, fun tag fields h => ?_, fun cfg d s tag fields h => ?_⟩
  · simp [decodeRecord, h]
  · simp [searchDomain, h]

/-- Witness for C2 at the unrecognized tag `"Garbage"`. -/
theorem searchDomain_decode_dispatch_witness :
    decodeRecord "Garbage" ⟨[0], [1], [2], "gaddr", 3, 4, 5⟩ = .subDomainRecord
      { node := encodeHex [0], parent := encodeHex [2], address := "gaddr",
        snapshot := toString (5 : Nat) } ∧
    (searchDomain ⟨some "CID", none, none, "GSIM"⟩ "stellar" none
      (.success (some ("Garbage", ⟨[0], [1], [2], "gaddr", 3, 4, 5⟩)))).1 =
      .ok (decodeRecord "Garbage" ⟨[0], [1], [2], "gaddr", 3, 4, 5⟩) :=
  ⟨searchDomain_decode_dispatch.2.1 "Garbage" _ (by decide),
   searchDomain_decode_dispatch.2.2 _ "stellar" none "Garbage" _ (by decide)⟩

/-- Claim C3: `isValidDomain` accepts exactly the strings matching the
anchored regex, with at most 3 dot-separated labels, every label at most 15
characters; with the concrete example verdicts. -/
theorem isValidDomain_spec :
    (∀ d, isValidDomain d =
      (domainRegexTest d && decide ((jsSplitDot d).length ≤ 3) &&
        (jsSplitDot d).all fun p => decide (p.length ≤ 15)))
    ∧ isValidDomain "stellar.xlm" = true
    ∧ isValidDomain "dev.stellar.xlm" = true
    ∧ isValidDomain "another.dev.stellar.xlm" = false
    ∧ isValidDomain "stellar" = false
    ∧ isValidDomain "stellar..xlm" = false
    ∧ isValidDomain " stellar.xlm" = false
    ∧ isValidDomain "qwertyuiopasdfghjklzxcvbnm.xlm" = false
    ∧ isValidDomain "hello-world.xlm" = false
    ∧ isValidDomain "steLLar.xlm" = false
    ∧ isValidDomain "ste11ar.xlm" = false := by
  refine ⟨fun d => ?_, by rfl, by decide, by rfl, by decide, by rfl, by decide,
    by rfl, by decide, by rfl, by decide⟩
  unfold isValidDomain
  by_cases h : domainRegexTest d
  · simp only [h, Bool.not_true, Bool.false_eq_true, if_false, Bool.true_and]
    by_cases h2 : (jsSplitDot d).length > 3
    · simp [h2, Nat.not_le.mpr h2]
    · simp [h2, Nat.not_lt.mp h2]
  · simp [h]

/-- Claim C4: an empty/void decoded reply raises exactly the not-found error
of its call site: `Domain404Error` in `searchDomain`, `DomainData404Error`
in `getDomainData`, `ReverseDomain404Error` in `getReverseDomain`. -/
theorem decode_empty_reply_404 :
    (∀ cfg d s, jsTruthy cfg.vaultsContractId = true →
      (searchDomain cfg d s (.success none)).1 = .error .domain404)
    ∧ (∀ cfg n k, jsTruthy cfg.valuesDatabaseContractId = true →
      (getDomainData cfg n k (.success none)).1 = .error .domainData404)
    ∧ (∀ cfg a, jsTruthy cfg.reverseRegistrarContractId = true →
      (getReverseDomain cfg a (.success none)).1 = .error .reverseDomain404) :=
  ⟨fun cfg d s h => by simp [searchDomain, h],
   fun cfg n k h => by simp [getDomainData, h],
   fun cfg a h => by simp [getReverseDomain, h]⟩

/-- Witness for C4 with all contract identifiers configured. -/
theorem decode_empty_reply_404_witness :
    (searchDomain ⟨some "CV", some "CK", some "CR", "GSIM"⟩ "stellar" none
      (.success none)).1 = .error .domain404 ∧
    (getDomainData ⟨some "CV", some "CK", some "CR", "GSIM"⟩ "ab" "TOML"
      (.success none)).1 = .error .domainData404 ∧
    (getReverseDomain ⟨some "CV", some "CK", some "CR", "GSIM"⟩ "GADDR"
      (.success none)).1 = .error .reverseDomain404 :=
  ⟨decode_empty_reply_404.1 _ "stellar" none (by decide),
   decode_empty_reply_404.2.1 _ "ab" "TOML" (by decide),
   decode_empty_reply_404.2.2 _ "GADDR" (by decide)⟩

/-- Claim C5: `setReverseDomain` with a non-null domain lowercases and
splits it on dots: fewer than 2 labels fail with the invalid-format error
before any network call, otherwise the last label becomes `tld`, the
second-to-last `sld`, and the remaining labels, in order, the `subs`; a null
domain is encoded as the explicit void marker. -/
theorem setReverseDomain_encode_spec :
    (∀ subs sld tld, mkReverseTriple (subs ++ [sld, tld]) =
      ⟨utf8Encode tld, utf8Encode sld, subs.map utf8Encode⟩)
    ∧ (∀ cfg a d src sim, jsTruthy cfg.reverseRegistrarContractId = true →
      (jsSplitDot (jsToLowerCase d)).length < 2 →
      setReverseDomain cfg a (some d) src sim =
        (.error (.jsError "Invalid domain format"), []))
    ∧ (∀ cfg a d src u, jsTruthy cfg.reverseRegistrarContractId = true →
      2 ≤ (jsSplitDot (jsToLowerCase d)).length →
      (setReverseDomain cfg a (some d) src (.success u)).1 =
        .ok (.scvAddress a, .scvTriple (mkReverseTriple (jsSplitDot (jsToLowerCase d)))))
    ∧ (∀ cfg a src u, jsTruthy cfg.reverseRegistrarContractId = true →
      (setReverseDomain cfg a none src (.success u)).1 = .ok (.scvAddress a, .scvVoid)) := by
  refine ⟨mkReverseTriple_append, fun cfg a d src sim h hl => ?_,
    fun cfg a d src u h hl => ?_, fun cfg a src u h => ?_⟩
  · simp [setReverseDomain, encodeReverseDomain, h, hl]
  · simp [setReverseDomain, encodeReverseDomain, h, Nat.not_lt.mpr hl]
  · simp [setReverseDomain, encodeReverseDomain, h]

/-- Witness for C5 at `"notld"`, `"Hello.Overcat.xlm"` and `null`. -/
theorem setReverseDomain_encode_spec_witness :
    mkReverseTriple (["hello"] ++ ["overcat", "xlm"]) =
      ⟨utf8Encode "xlm", utf8Encode "overcat", ["hello"].map utf8Encode⟩ ∧
    setReverseDomain ⟨none, none, some "CR", "GSIM"⟩ "GADDR" (some "notld") "GSRC"
      (.success ()) = (.error (.jsError "Invalid domain format"), []) ∧
    (setReverseDomain ⟨none, none, some "CR", "GSIM"⟩ "GADDR" (some "Hello.Overcat.xlm")
      "GSRC" (.success ())).1 =
      .ok (.scvAddress "GADDR",
        .scvTriple (mkReverseTriple (jsSplitDot (jsToLowerCase "Hello.Overcat.xlm")))) ∧
    (setReverseDomain ⟨none, none, some "CR", "GSIM"⟩ "GADDR" none "GSRC"
      (.success ())).1 = .ok (.scvAddress "GADDR", .scvVoid) :=
  ⟨setReverseDomain_encode_spec.1 ["hello"] "overcat" "xlm",
   setReverseDomain_encode_spec.2.1 _ "GADDR" "notld" "GSRC" _ (by decide) (by decide),
   setReverseDomain_encode_spec.2.2.1 _ "GADDR" "Hello.Overcat.xlm" "GSRC" ()
     (by decide) (by decide),
   setReverseDomain_encode_spec.2.2.2 _ "GADDR" "GSRC" () (by decide)⟩

/-- Counterexample to claim C6 as stated: `".a.xlm"` is lowercase, splits
into 3 labels (at least 2), yet encoding to the reverse triple and rendering
back yields `"a.xlm"`, not `".a.xlm"`: the single empty sub joins to the
empty string and the renderer drops the segment. -/
theorem reverse_domain_roundtrip_cex :
    jsToLowerCase ".a.xlm" = ".a.xlm" ∧
    2 ≤ (jsSplitDot ".a.xlm").length ∧
    renderReverseDomain (mkReverseTriple (jsSplitDot (jsToLowerCase ".a.xlm"))) = "a.xlm" ∧
    ("a.xlm" : String) ≠ ".a.xlm" := by decide

/-- Claim C6 (amended): encoding a lowercase dotted domain with at least 2
labels by the `setReverseDomain` split rule and rendering the triple by the
`getReverseDomain` rule yields the original string, except in the single
degenerate case of exactly 3 labels whose first label is empty; in
particular the `"hello.overcat.xlm"` and `"overcat.xlm"` round trips of the
claim hold. -/
theorem reverse_domain_roundtrip_amended :
    (∀ s : String, jsToLowerCase s = s → 2 ≤ (jsSplitDot s).length →
      ¬((jsSplitDot s).length = 3 ∧ (jsSplitDot s).getD 0 "" = "") →
      renderReverseDomain (mkReverseTriple (jsSplitDot (jsToLowerCase s))) = s)
    ∧ mkReverseTriple (jsSplitDot (jsToLowerCase "hello.overcat.xlm")) =
        ⟨utf8Encode "xlm", utf8Encode "overcat", [utf8Encode "hello"]⟩
    ∧ renderReverseDomain ⟨utf8Encode "xlm", utf8Encode "overcat", [utf8Encode "hello"]⟩ =
        "hello.overcat.xlm"
    ∧ mkReverseTriple (jsSplitDot (jsToLowerCase "overcat.xlm")) =
        ⟨utf8Encode "xlm", utf8Encode "overcat", []⟩
    ∧ renderReverseDomain ⟨utf8Encode "xlm", utf8Encode "overcat", []⟩ = "overcat.xlm" := by
  refine ⟨?_, by decide, by decide, by decide, by decide⟩
  intro s hlow hlen hexc
  rw [hlow]
  obtain ⟨init, a, b, hp⟩ := exists_append_pair _ hlen
  rw [hp, mkReverseTriple_append]
  have hs : joinDot (init ++ [a, b]) = s := by rw [← hp]; exact joinDot_jsSplitDot s
  have hcomp : ∀ l : List String, l.map (utf8Decode ∘ utf8Encode) = l := fun l => by
    simp [Function.comp_def, utf8_roundtrip]
  simp only [renderReverseDomain, List.map_map]
  rw [hcomp, utf8_roundtrip, utf8_roundtrip]
  rcases eq_or_ne (joinDot init) "" with hje | hje
  · rcases joinDot_eq_empty init hje with h0 | h0
    · subst h0
      simp only [joinDot, List.nil_append] at hs ⊢
      rw [if_pos (by rfl)]
      apply string_data_ext
      have hd := congrArg String.data hs
      simp only [data_append, dot_data] at hd ⊢
      simpa [List.append_assoc] using hd
    · exact absurd ⟨by simp [hp, h0], by simp [hp, h0]⟩ hexc
  · have hinit : init ≠ [] := fun h0 => hje (by rw [h0]; rfl)
    rw [if_neg (by simpa using hje)]
    apply string_data_ext
    have hd := congrArg String.data hs
    rw [joinDot_data, List.map_append] at hd
    simp only [List.map_cons, List.map_nil] at hd
    rw [jdc_append_pair _ _ _ (by simpa using hinit)] at hd
    simp only [data_append, dot_data, joinDot_data]
    simpa [List.append_assoc] using hd

/-- Witness for amended C6 at `"hello.overcat.xlm"`. -/
theorem reverse_domain_roundtrip_amended_witness :
    renderReverseDomain (mkReverseTriple (jsSplitDot (jsToLowerCase "hello.overcat.xlm"))) =
      "hello.overcat.xlm" :=
  reverse_domain_roundtrip_amended.1 "hello.overcat.xlm" (by decide) (by decide) (by decide)

/-- Claim C7: `setDomainData` with a storage-value tag outside
`{"Bytes", "Number", "String"}` fails with the unsupported-value-type error
before any network interaction (no account fetch, no simulation); the three
supported tags encode to the tagged symbol/payload pair, the integer as the
128-bit signed wire integer. -/
theorem setDomainData_unsupported_tag :
    (∀ cfg n k v src sim, jsTruthy cfg.valuesDatabaseContractId = true →
      v.tag ≠ "Bytes" → v.tag ≠ "Number" → v.tag ≠ "String" →
      setDomainData cfg n k v src sim = (.error .domainDataUnsupportedValueType, []))
    ∧ (∀ b, encodeDomainDataValue ⟨"Bytes", .bytes b⟩ =
        .ok (.scvVec [.scvSymbol "Bytes", .scvBytes b]))
    ∧ (∀ n, encodeDomainDataValue ⟨"Number", .int n⟩ =
        .ok (.scvVec [.scvSymbol "Number", .scvI128 n]))
    ∧ (∀ s, encodeDomainDataValue ⟨"String", .str s⟩ =
        .ok (.scvVec [.scvSymbol "String", .scvString s])) := by
  refine ⟨fun cfg n k v src sim h h1 h2 h3 => ?_, fun b => rfl, fun n => rfl, fun s => rfl⟩
  have he : encodeDomainDataValue v = .error .domainDataUnsupportedValueType := by
    unfold encodeDomainDataValue
    split <;> simp_all
  simp [setDomainData, h, he]

/-- Witness for C7 at the unsupported tag `"Float"`. -/
theorem setDomainData_unsupported_tag_witness :
    setDomainData ⟨none, some "CK", none, "GSIM"⟩ "ab" "TOML" ⟨"Float", .str "x"⟩ "GSRC"
      (.success ()) = (.error .domainDataUnsupportedValueType, []) ∧
    encodeDomainDataValue ⟨"Number", .int 42⟩ =
      .ok (.scvVec [.scvSymbol "Number", .scvI128 42]) :=
  ⟨setDomainData_unsupported_tag.1 _ "ab" "TOML" _ "GSRC" _ (by decide) (by decide)
      (by decide) (by decide),
   setDomainData_unsupported_tag.2.2.1 42⟩

/-- Claim C8: `hash` always returns a 32-byte digest, and `parseDomain`
always returns (for any params, the empty string included) a string of
exactly 64 characters, all of them lowercase hex digits. -/
theorem hash_parseDomain_total_shape :
    (∀ input, (hash input).length = 32)
    ∧ (∀ p, (parseDomain p).length = 64 ∧
        (parseDomain p).data.all isLowerHexDigit = true) := by
  constructor
  · intro input
    cases input <;> simp [hash, keccak256_length]
  · intro p
    unfold parseDomain
    by_cases h : jsTruthy p.subDomain <;>
      simp [h, hash, encodeHex_length, keccak256_length, encodeHex_all_hex]

/-- Claim C9: each method checks its contract identifier first and, when it
is absent (falsy), fails with that identifier's configuration error before
any network call: `searchDomain` needs the vaults id, the three key-value
methods need the database id, the two reverse methods the registrar id. -/
theorem config_missing_fails_first :
    (∀ cfg d s sim, jsTruthy cfg.vaultsContractId = false →
      searchDomain cfg d s sim =
        (.error (.jsError "Vault\x27s contract id was not provided"), []))
    ∧ (∀ cfg n k sim, jsTruthy cfg.valuesDatabaseContractId = false →
      getDomainData cfg n k sim =
        (.error (.jsError "KeyValue Database contract id was not provided"), []))
    ∧ (∀ cfg n k v src sim, jsTruthy cfg.valuesDatabaseContractId = false →
      setDomainData cfg n k v src sim =
        (.error (.jsError "KeyValue Database contract id was not provided"), []))
    ∧ (∀ cfg n k src sim, jsTruthy cfg.valuesDatabaseContractId = false →
      removeDomainData cfg n k src sim =
        (.error (.jsError "KeyValue Database contract id was not provided"), []))
    ∧ (∀ cfg a dom src sim, jsTruthy cfg.reverseRegistrarContractId = false →
      setReverseDomain cfg a dom src sim =
        (.error (.jsError "Reverse Registrar contract id was not provided"), []))
    ∧ (∀ cfg a sim, jsTruthy cfg.reverseRegistrarContractId = false →
      getReverseDomain cfg a sim =
        (.error (.jsError "Reverse Registrar contract id was not provided"), [])) :=
  ⟨fun cfg d s sim h => by simp [searchDomain, h],
   fun cfg n k sim h => by simp [getDomainData, h],
   fun cfg n k v src sim h => by simp [setDomainData, h],
   fun cfg n k src sim h => by simp [removeDomainData, h],
   fun cfg a dom src sim h => by simp [setReverseDomain, h],
   fun cfg a sim h => by simp [getReverseDomain, h]⟩

/-- Witness for C9 with an entirely unconfigured client. -/
theorem config_missing_fails_first_witness :
    searchDomain ⟨none, none, none, "GSIM"⟩ "stellar" none (.success none) =
      (.error (.jsError "Vault\x27s contract id was not provided"), []) ∧
    getDomainData ⟨none, none, none, "GSIM"⟩ "ab" "TOML" (.success none) =
      (.error (.jsError "KeyValue Database contract id was not provided"), []) ∧
    setDomainData ⟨none, none, none, "GSIM"⟩ "ab" "TOML" ⟨"String", .str "x"⟩ "GSRC"
      (.success ()) =
      (.error (.jsError "KeyValue Database contract id was not provided"), []) ∧
    removeDomainData ⟨none, none, none, "GSIM"⟩ "ab" "TOML" "GSRC" (.success ()) =
      (.error (.jsError "KeyValue Database contract id was not provided"), []) ∧
    setReverseDomain ⟨none, none, none, "GSIM"⟩ "GADDR" (some "a.xlm") "GSRC"
      (.success ()) =
      (.error (.jsError "Reverse Registrar contract id was not provided"), []) ∧
    getReverseDomain ⟨none, none, none, "GSIM"⟩ "GADDR" (.success none) =
      (.error (.jsError "Reverse Registrar contract id was not provided"), []) :=
  ⟨config_missing_fails_first.1 _ "stellar" none _ (by decide),
   config_missing_fails_first.2.1 _ "ab" "TOML" _ (by decide),
   config_missing_fails_first.2.2.1 _ "ab" "TOML" _ "GSRC" _ (by decide),
   config_missing_fails_first.2.2.2.1 _ "ab" "TOML" "GSRC" _ (by decide),
   config_missing_fails_first.2.2.2.2.1 _ "GADDR" _ "GSRC" _ (by decide),
   config_missing_fails_first.2.2.2.2.2 _ "GADDR" _ (by decide)⟩

/-- Claim C10: empty-string optional arguments to `parseDomain` behave as if
omitted: an empty `tld` falls back to `"xlm"` (it is not hashed as the empty
string), and an empty `subDomain` skips the subnode stage, returning the
parent node. -/
theorem parseDomain_empty_optionals :
    ∀ d, parseDomain ⟨d, none, some ""⟩ = parseDomain ⟨d, none, none⟩ ∧
      parseDomain ⟨d, some "", none⟩ = parseDomain ⟨d, none, none⟩ :=
  fun _ => ⟨rfl, rfl⟩

end SorobanDomains
